import Mathlib

/-
Verification development for the NCBI-GEO-database-scrapper repository.

The Python sources are shallowly embedded as executable Lean definitions:

  * strings are modelled as lists of characters (Str), with the string
    operations used by the sources (split, replace, lower, strip, prefix
    and suffix tests) implemented structurally so that concrete runs
    reduce in the kernel;
  * src/utils/excel_writer.py (save_to_excel) is modelled over an
    explicit file-system state: a list of numbered spreadsheet slots,
    each holding an optional Frame (columns plus rows); the byte size
    reported by os.path.getsize is an abstract size function on frames,
    since the xlsx encoding itself is an external collaborator;
  * src/utils/file_handler.py (FileHandler.download_and_extract_from_url)
    is modelled over an environment of fallible external calls (HEAD
    probe, GET download, tar open) and a state of files on disk, and it
    also returns the trace of externally visible events;
  * src/scrapers/geo_scraper.py (process_xml_file, get_text_or_none,
    get_contributors, get_platforms, scrape_geo) is modelled over a
    rose-tree document model for parsed HTML/XML and an environment of
    fallible page fetches.

Python exceptions are modelled with Except; a Python call site without a
try/except around it is an Except bind, so a failure propagates, while a
guarded call site pattern-matches on the result and substitutes the
value the handler produces.
-/

namespace Geo

/-! ## Characters and strings -/

abbrev Str := List Char

/-- ASCII lowercasing of one character, modelling str.lower on the
ASCII data this scraper handles. -/
def lcChar (c : Char) : Char :=
  if ('A') ≤ c ∧ c ≤ ('Z') then Char.ofNat (c.toNat + 32) else c

/-- Python str.lower (restricted to ASCII). -/
def strLower (s : Str) : Str := s.map lcChar

def isSpaceChar (c : Char) : Bool :=
  c == (' ') || c == ('\t') || c == ('\n') || c == ('\r')

/-- Python str.strip(): drop leading and trailing whitespace. -/
def strTrim (s : Str) : Str :=
  ((s.dropWhile isSpaceChar).reverse.dropWhile isSpaceChar).reverse

def splitOnCharAux (sep : Char) : List Char → List Char → List Str
  | [], cur => [cur.reverse]
  | c :: rest, cur =>
      if c = sep then cur.reverse :: splitOnCharAux sep rest []
      else splitOnCharAux sep rest (c :: cur)

/-- Python str.split(sep) for a one-character separator, keeping empty
pieces, as str.split and urllib parsing do. -/
def splitOnChar (sep : Char) (s : Str) : List Str := splitOnCharAux sep s []

/-- Split at the first occurrence of a character; none when the
character does not occur. -/
def splitFirst (sep : Char) : Str → Option (Str × Str)
  | [] => none
  | c :: rest =>
      if c = sep then some ([], rest)
      else (splitFirst sep rest).map (fun p => (c :: p.1, p.2))

def afterChar (sep : Char) (s : Str) : Str :=
  match splitFirst sep s with
  | some p => p.2
  | none => []

def beforeChar (sep : Char) (s : Str) : Str :=
  match splitFirst sep s with
  | some p => p.1
  | none => s

def replaceAllAux (pat rep : Str) : Nat → Str → Str
  | 0, s => s
  | _ + 1, [] => []
  | fuel + 1, c :: rest =>
      if pat.isPrefixOf (c :: rest) then
        rep ++ replaceAllAux pat rep fuel ((c :: rest).drop pat.length)
      else c :: replaceAllAux pat rep fuel rest

/-- Python str.replace(pat, rep) for a non-empty pattern: replace every
occurrence, scanning left to right. -/
def replaceAll (pat rep s : Str) : Str := replaceAllAux pat rep s.length s

/-- Python os.path.basename: the part after the last slash. -/
def basename (s : Str) : Str := (splitOnChar ('/') s).getLastD []

/-- The query component of a URL: after the first question mark, before
a fragment marker, as urllib.parse.urlparse produces for the URLs this
scraper builds (no fragment-before-query corner cases arise). -/
def queryOf (url : Str) : Str := beforeChar ('#') (afterChar ('?') url)

/-- urllib.parse.parse_qs restricted to what the scraper reads: the
key-value pairs of a query string, splitting each piece at its first
equals sign and dropping pieces with a blank or missing value
(keep_blank_values is left at its default False).  Percent-decoding is
not modelled; GEO accession values contain no escapes. -/
def parseQsPairs (query : Str) : List (Str × Str) :=
  (splitOnChar ('&') query).filterMap (fun kv =>
    match splitFirst ('=') kv with
    | some (k, v) => if v = [] then none else some (k, v)
    | none => none)

def accKey : Str := "acc".data

def unknownVal : Str := "Unknown".data

/-- parse_qs(urlparse(url).query).get("acc", ["Unknown"])[0] from
scrape_geo: the accession taken from a result link's query string. -/
def extractAcc (url : Str) : Str :=
  match (parseQsPairs (queryOf url)).lookup accKey with
  | some v => v
  | none => unknownVal

/-! ## Rows and frames (the pandas data the Tabular Sink handles)

A row is a Python dict with string keys whose values are strings or
None; a frame is a pandas DataFrame: an ordered column list plus rows.
A cell is null when the row lacks the key or holds None. -/

abbrev Row := List (Str × Option Str)

/-- The value a row shows in a column: null both when the key is absent
and when the stored value is None. -/
def cellVal (r : Row) (c : Str) : Option Str := (r.lookup c).join

structure Frame where
  cols : List Str
  rows : List Row
deriving DecidableEq

/-- pandas DataFrame(list-of-dicts): columns are the union of the row
keys in first-appearance order. -/
def frameOfRows (data : List Row) : Frame :=
  { cols := data.foldl (fun acc r => acc ++ (r.map Prod.fst).filter (fun k => decide (k ∉ acc))) [],
    rows := data }

/-- pandas concat along rows: the column union keeps the first frame's
order and appends the second frame's new columns. -/
def concatFrames (f g : Frame) : Frame :=
  { cols := f.cols ++ g.cols.filter (fun c => decide (c ∉ f.cols)),
    rows := f.rows ++ g.rows }

/-! ## The Tabular Sink: save_to_excel from src/utils/excel_writer.py

The file system visible to save_to_excel is the sequence of candidate
files data/final_result_1.xlsx, data/final_result_2.xlsx, ...; slot i
(1-based) holds some frame when the file exists.  Beyond the list the
files do not exist.  os.path.getsize is abstracted by a size function
szFn on frames, because the byte size of the xlsx encoding is produced
by the external spreadsheet encoder. -/

def threshold : Nat := 50 * 1024 * 1024

def colDatasetUrl : Str := "Dataset URL".data
def colTitle : Str := "Title".data
def colSummary : Str := "Summary".data
def colExpType : Str := "Experiment type".data
def colOverall : Str := "Overall design".data
def colContrib : Str := "Contributor(s)".data
def colSubDate : Str := "Submission date".data
def colLastUpd : Str := "Last update date".data
def colContact : Str := "Contact name".data
def colOrgName : Str := "Organization name".data
def colStreet : Str := "Street address".data
def colCity : Str := "City".data
def colZip : Str := "ZIP/Postal code".data
def colCountry : Str := "Country".data
def colPlatforms : Str := "Platforms".data
def colSamples : Str := "Samples".data
def colAccession : Str := "Accession Number".data
def colSampleNum : Str := "Sample Number (ID)".data
def colOrganism : Str := "Organism".data
def colTissue : Str := "Tissue".data
def colCellType : Str := "Cell Type".data

/-- The declared column order of save_to_excel (excel_writer.py lines
11-16). -/
def geoColumns : List Str :=
  [colDatasetUrl, colTitle, colSummary, colExpType, colOverall,
   colContrib, colSubDate, colLastUpd, colContact,
   colOrgName, colStreet, colCity, colZip, colCountry,
   colPlatforms, colSamples, colAccession, colSampleNum, colOrganism, colTissue, colCellType]

/-- The while loop of excel_writer.py lines 22-25: advance past every
candidate that exists and is over 50 MB; stop at the first candidate
that does not exist or whose current size is within the threshold. -/
def findFile (szFn : Frame → Nat) : List (Option Frame) → Nat → Nat
  | [], i => i
  | none :: _, i => i
  | some f :: rest, i =>
      if szFn f > threshold then findFile szFn rest (i + 1) else i

/-- The frame stored in candidate slot i (1-based); none when the file
does not exist. -/
def getFile (fs : List (Option Frame)) (i : Nat) : Option Frame :=
  fs.getD (i - 1) none

/-- Write a frame into candidate slot i (1-based), materialising the
slot when the list is shorter. -/
def setFile (fs : List (Option Frame)) (i : Nat) (f : Frame) : List (Option Frame) :=
  (fs ++ List.replicate (i - fs.length) none).set (i - 1) (some f)

/-- The back-fill loop of excel_writer.py lines 41-43: append every
declared column still missing from the merged frame. -/
def backfill (f : Frame) : List Str → Frame
  | [] => f
  | c :: cs => backfill (if c ∈ f.cols then f else { f with cols := f.cols ++ [c] }) cs

/-- save_to_excel from src/utils/excel_writer.py: pick the target file
by scanning numbered candidates, create it with the declared header if
absent, load it, concatenate the new rows, back-fill missing declared
columns with null, and rewrite the file in full. -/
def save_to_excel (szFn : Frame → Nat) (fs : List (Option Frame)) (data : List Row) :
    List (Option Frame) :=
  let i := findFile szFn fs 1
  let f0 : Frame :=
    match getFile fs i with
    | some f => f
    | none => { cols := geoColumns, rows := [] }
  let df := backfill (concatFrames f0 (frameOfRows data)) geoColumns
  setFile fs i df

/-! ## The Archive Retriever: FileHandler.download_and_extract_from_url
from src/utils/file_handler.py

External calls are an environment: the HEAD probe yields the advertised
content-length, the GET download either succeeds (writing the scratch
archive) or fails, and opening the written archive yields its member
names or a decompression error.  The state tracks the files present in
the working directory and in the xml destination directory, and the
returned trace records the externally visible actions. -/

structure FHEnv where
  headSize : Str → Except Str Nat
  getOk : Str → Except Str Unit
  tarMembers : Str → Except Str (List Str)

structure FHState where
  outFiles : List Str
  xmlFiles : List Str
deriving DecidableEq

inductive FHEvent where
  | probe (url : Str)
  | download (url : Str)
  | extract (name : Str)
  | skippedTooLarge
  | caughtError
deriving DecidableEq

def familyTgz : Str := "_family.xml.tgz".data
def familyXml : Str := "_family.xml".data
def dataDirPath : Str := "data/".data
def xmlDirPath : Str := "data/xml/".data
def xmlExt : Str := ".xml".data

/-- The archive size ceiling of file_handler.py line 82 (the comments
there say 10 MB but the code compares against 30 MB). -/
def sizeCeiling : Nat := 30 * 1024 * 1024

/-- The member loop of file_handler.py lines 106-115: walk the members,
and at the first one whose name ends in .xml, flatten its path to a
bare filename, extract it unless that filename already exists in the
xml directory, and return the expected extracted path at once.  When no
member matches, the loop falls through and the function returns None. -/
def extractLoop (st : FHState) (expectedPath : Str) :
    List Str → Option Str × FHState × List FHEvent
  | [] => (none, st, [])
  | m :: rest =>
      if xmlExt.isSuffixOf m then
        let b := basename m
        if b ∈ st.xmlFiles then (some expectedPath, st, [])
        else (some expectedPath, { st with xmlFiles := st.xmlFiles ++ [b] }, [FHEvent.extract b])
      else extractLoop st expectedPath rest

/-- FileHandler.download_and_extract_from_url: probe the advertised
size, skip oversized archives, download the scratch .tgz, extract from
it, and in a finally block always remove the scratch .tgz; every
network or extraction error is caught and surfaced as None. -/
def download_and_extract (env : FHEnv) (st : FHState) (base_url accession : Str) :
    Option Str × FHState × List FHEvent :=
  let file_name := accession ++ familyTgz
  let full_url := base_url ++ file_name
  let tgz_file_path := dataDirPath ++ file_name
  let extracted_file_path := xmlDirPath ++ (accession ++ familyXml)
  let tryResult : Option Str × FHState × List FHEvent :=
    match env.headSize full_url with
    | .error _ => (none, st, [FHEvent.probe full_url, FHEvent.caughtError])
    | .ok size =>
      if size > sizeCeiling then (none, st, [FHEvent.probe full_url, FHEvent.skippedTooLarge])
      else
        match env.getOk full_url with
        | .error _ =>
            (none, st, [FHEvent.probe full_url, FHEvent.download full_url, FHEvent.caughtError])
        | .ok _ =>
          let st1 : FHState := { st with outFiles := st.outFiles ++ [tgz_file_path] }
          match env.tarMembers full_url with
          | .error _ =>
              (none, st1, [FHEvent.probe full_url, FHEvent.download full_url, FHEvent.caughtError])
          | .ok members =>
            let r := extractLoop st1 extracted_file_path members
            (r.1, r.2.1, FHEvent.probe full_url :: FHEvent.download full_url :: r.2.2)
  (tryResult.1,
   { tryResult.2.1 with
       outFiles := tryResult.2.1.outFiles.filter (fun f => !(f == tgz_file_path)) },
   tryResult.2.2)

/-! ## Parsed documents

A queryable document tree, as BeautifulSoup and xml.etree produce: each
element has a tag (for XML, the Clark-notation namespace-qualified
name), attributes, the directly contained text (the .string of the
element, the .text of an XML element), and child elements.  Node and
Forest are mutually inductive so that traversals are structural and
concrete documents evaluate in the kernel. -/

mutual
inductive Node where
  | mk (tag : Str) (attrs : List (Str × Str)) (text : Option Str) (children : Forest)
inductive Forest where
  | nil
  | cons (n : Node) (rest : Forest)
end

def Node.tag : Node → Str
  | .mk t _ _ _ => t

def Node.attrs : Node → List (Str × Str)
  | .mk _ a _ _ => a

def Node.text : Node → Option Str
  | .mk _ _ s _ => s

def Node.children : Node → Forest
  | .mk _ _ _ c => c

def forestOf : List Node → Forest
  | [] => .nil
  | n :: rest => .cons n (forestOf rest)

mutual
/-- Every node of a subtree in document (preorder) order. -/
def allNodesN : Node → List Node
  | .mk t a s c => .mk t a s c :: allNodesF c
def allNodesF : Forest → List Node
  | .nil => []
  | .cons n rest => allNodesN n ++ allNodesF rest
end

def tdTag : Str := "td".data
def aTag : Str := "a".data

mutual
/-- soup.find("td", string=label): the first td element (in document
order) whose string equals the label, returned together with the forest
of its following siblings so that find_next_sibling can be read off. -/
def findTdN (label : Str) : Node → Forest → Option (Node × Forest)
  | .mk t a s c, later =>
      if t = tdTag ∧ s = some label then some (.mk t a s c, later)
      else findTdF label c
def findTdF (label : Str) : Forest → Option (Node × Forest)
  | .nil => none
  | .cons n rest =>
      match findTdN label n rest with
      | some r => some r
      | none => findTdF label rest
end

/-- element.find_next_sibling("td"): the first following sibling with
tag td. -/
def nextSiblingTd : Forest → Option Node
  | .nil => none
  | .cons n rest => if n.tag = tdTag then some n else nextSiblingTd rest

/-- element.get_text(strip=True): the stripped text segments of the
subtree, concatenated in document order. -/
def getTextStrip (n : Node) : Str :=
  (((allNodesN n).filterMap Node.text).map strTrim).flatten

/-- element.find_all("a"): every descendant anchor in document order. -/
def findAllA (n : Node) : List Node :=
  (allNodesF n.children).filter (fun m => m.tag == aTag)

/-- soup.find("a", string=label): the first anchor whose string equals
the label. -/
def findAString (soup : Node) (label : Str) : Option Node :=
  (allNodesF soup.children).find? (fun n => n.tag == aTag && n.text == some label)

/-- Whether the document holds any td element whose string is the
label: the label is present in the detail document. -/
def tdPresent (soup : Node) (label : Str) : Bool :=
  (allNodesF soup.children).any (fun n => n.tag == tdTag && n.text == some label)

/-- get_text_or_none from src/scrapers/geo_scraper.py lines 196-201. -/
def get_text_or_none (soup : Node) (label : Str) : Option Str :=
  match findTdF label soup.children with
  | none => none
  | some (_, later) =>
      match nextSiblingTd later with
      | some sib => some (getTextStrip sib)
      | none => none

def commaSep : Str := ", ".data
def attributeError : Str := "AttributeError".data

/-- get_contributors from src/scrapers/geo_scraper.py lines 203-207:
when the label row is found, find_next_sibling("td") is dereferenced
without a check, so a found label with no td sibling raises. -/
def get_contributors (soup : Node) : Except Str (Option Str) :=
  match findTdF colContrib soup.children with
  | none => .ok none
  | some (_, later) =>
      match nextSiblingTd later with
      | none => .error attributeError
      | some sib => .ok (some (List.intercalate commaSep ((findAllA sib).map getTextStrip)))

/-- get_platforms from src/scrapers/geo_scraper.py lines 209-213. -/
def get_platforms (soup : Node) : Except Str (Option Str) :=
  match findTdF colPlatforms soup.children with
  | none => .ok none
  | some (_, later) =>
      match nextSiblingTd later with
      | none => .error attributeError
      | some sib => .ok (some (List.intercalate commaSep ((findAllA sib).map getTextStrip)))

/-! ## The Sample Parser: process_xml_file from src/scrapers/geo_scraper.py -/

def nsSample : Str := "\x7bhttp://www.ncbi.nlm.nih.gov/geo/info/MINiML\x7dSample".data
def nsCharacteristics : Str := "\x7bhttp://www.ncbi.nlm.nih.gov/geo/info/MINiML\x7dCharacteristics".data
def tagAttr : Str := "tag".data
def iidAttr : Str := "iid".data
def tissueTag : Str := "tissue".data
def cellLineTag : Str := "cell line".data
def notAvailable : Str := "Not Available".data
def colCellLine : Str := "Cell line".data

structure SampleData where
  sampleId : Str
  tissue : Option Str
  cellLine : Option Str
deriving DecidableEq

/-- root.findall(".//ns:Sample", ns): every Sample descendant, any
depth, in document order. -/
def findSamples (root : Node) : List Node :=
  (allNodesF root.children).filter (fun n => n.tag == nsSample)

/-- sample.findall(".//ns:Characteristics", ns). -/
def charsOf (s : Node) : List Node :=
  (allNodesF s.children).filter (fun n => n.tag == nsCharacteristics)

/-- characteristic.text.strip() if characteristic.text else
"Not Available": None and the empty string are falsy, any other text is
stripped. -/
def charText (c : Node) : Str :=
  match c.text with
  | none => notAvailable
  | some t => if t = [] then notAvailable else strTrim t

/-- One iteration of the Characteristics loop of geo_scraper.py lines
105-110: lowercase the tag attribute and record the text under Tissue
or Cell line when it matches. -/
def applyChar (sd : SampleData) (c : Node) : SampleData :=
  let tag := strLower ((c.attrs.lookup tagAttr).getD [])
  if tag = tissueTag then { sd with tissue := some (charText c) }
  else if tag = cellLineTag then { sd with cellLine := some (charText c) }
  else sd

/-- The per-Sample record of geo_scraper.py lines 98-112: the iid
attribute (default "Not Available"), and Tissue and Cell line fields
that start as None and are overwritten by matching Characteristics. -/
def sampleOf (s : Node) : SampleData :=
  (charsOf s).foldl applyChar
    { sampleId := (s.attrs.lookup iidAttr).getD notAvailable, tissue := none, cellLine := none }

/-- process_xml_file from src/scrapers/geo_scraper.py lines 81-117: a
parse failure is caught and yields the empty list; otherwise one record
per Sample element in document order.  The argument is the outcome of
ET.parse on the file. -/
def process_xml_file : Except Str Node → List SampleData
  | .error _ => []
  | .ok root => (findSamples root).map sampleOf

/-! ## The Search Crawler: scrape_geo from src/scrapers/geo_scraper.py -/

def classAttr : Str := "class".data
def hrefAttr : Str := "href".data
def rsltClass : Str := "rslt".data
def accLinkStart : Str := "/geo/query/acc.cgi?acc=".data
def ncbiHost : Str := "https://www.ncbi.nlm.nih.gov".data
def ftpScheme : Str := "ftp://".data
def httpsScheme : Str := "https://".data
def minimlLabel : Str := "MINiML formatted family file(s)".data
def notFound : Str := "Not Found".data
def failedVal : Str := "Failed".data

/-- Whether an element carries the CSS class rslt: its class attribute,
split on spaces, contains it. -/
def hasRsltClass (n : Node) : Bool :=
  match n.attrs.lookup classAttr with
  | some c => (splitOnChar (' ') c).contains rsltClass
  | none => false

/-- The href of an anchor matching the attribute selector
a[href^='/geo/query/acc.cgi?acc=']. -/
def accHrefOf (n : Node) : Option Str :=
  if n.tag = aTag then
    match n.attrs.lookup hrefAttr with
    | some h => if accLinkStart.isPrefixOf h then some h else none
    | none => none
  else none

mutual
/-- The CSS selection .rslt a[href^='/geo/query/acc.cgi?acc='] of
geo_scraper.py line 128: every matching anchor that has an ancestor
with class rslt, in document order; the hrefs are read off directly
since the attribute selector guarantees them. -/
def accLinksN (inRslt : Bool) : Node → List Str
  | .mk t a s c =>
      (if inRslt then
        match accHrefOf (.mk t a s c) with
        | some h => [h]
        | none => []
      else []) ++ accLinksF (inRslt || hasRsltClass (.mk t a s c)) c
def accLinksF (inRslt : Bool) : Forest → List Str
  | .nil => []
  | .cons n rest => accLinksN inRslt n ++ accLinksF inRslt rest
end

def selectAccLinks (root : Node) : List Str := accLinksN false root

def colKeyword : Str := "Keyword".data
def colStatus : Str := "Status".data
def colXmlUrl : Str := "XML File URL".data
def colXmlPath : Str := "XML File Path".data

/-- The environment of external calls scrape_geo makes: the search and
detail page fetches (requests.get plus BeautifulSoup, unguarded in the
source), the FileHandler's network calls, ET.parse on an extracted file
path, and the size function of the spreadsheet encoder. -/
structure GeoEnv where
  searchFetch : Str → Except Str Node
  detailFetch : Str → Except Str Node
  fh : FHEnv
  parseXml : Str → Except Str Node
  xlsxSize : Frame → Nat

structure GeoState where
  fh : FHState
  fs : List (Option Frame)
deriving DecidableEq

/-- The base_data dict of geo_scraper.py lines 163-184.  The two anchor
aggregations can raise (Except bind); every other field is total. -/
def mkBaseData (keyword accession : Str) (soup : Node) (xmlUrl : Str) (xmlPath : Option Str) :
    Except Str Row :=
  match get_contributors soup with
  | .error e => .error e
  | .ok contribs =>
  match get_platforms soup with
  | .error e => .error e
  | .ok platforms =>
  .ok [(colKeyword, some keyword),
       (colAccession, some accession),
       (colTitle, get_text_or_none soup colTitle),
       (colStatus, get_text_or_none soup colStatus),
       (colOrganism, get_text_or_none soup colOrganism),
       (colExpType, get_text_or_none soup colExpType),
       (colSummary, get_text_or_none soup colSummary),
       (colOverall, get_text_or_none soup colOverall),
       (colContrib, contribs),
       (colSubDate, get_text_or_none soup colSubDate),
       (colLastUpd, get_text_or_none soup colLastUpd),
       (colContact, get_text_or_none soup colContact),
       (colOrgName, get_text_or_none soup colOrgName),
       (colStreet, get_text_or_none soup colStreet),
       (colCity, get_text_or_none soup colCity),
       (colZip, get_text_or_none soup colZip),
       (colCountry, get_text_or_none soup colCountry),
       (colPlatforms, platforms),
       (colXmlUrl, some xmlUrl),
       (colXmlPath, xmlPath)]

/-- The Python dict merge of geo_scraper.py line 188: the base keys in
order with sample values overriding, then the sample's new keys. -/
def dictUnion (b s : Row) : Row :=
  (b.map (fun kv =>
    match s.lookup kv.1 with
    | some v => (kv.1, v)
    | none => kv)) ++ s.filter (fun kv => decide ((b.lookup kv.1).isNone = true))

/-- A SampleRecord as the dict the sample loop merges in. -/
def sampleRow (sd : SampleData) : Row :=
  [(colSampleNum, some sd.sampleId), (colTissue, sd.tissue), (colCellLine, sd.cellLine)]

def keyErrorHref : Str := "KeyError: href".data

/-- The body of the per-result loop of scrape_geo (geo_scraper.py lines
129-189) up to and including building the merged rows: visit the result
page, look for the MINiML link, conditionally download and parse, build
base_data and one merged row per sample.  Returns the rows this
accession appends. -/
def processLink (env : GeoEnv) (keyword : Str) (st : GeoState) (href : Str) :
    Except Str (List Row × GeoState) :=
  let result_page_url := ncbiHost ++ href
  let accession := extractAcc result_page_url
  match env.detailFetch result_page_url with
  | .error e => .error e
  | .ok result_soup =>
  match findAString result_soup minimlLabel with
  | some a =>
    match a.attrs.lookup hrefAttr with
    | none => .error keyErrorHref
    | some h =>
      let base_url := replaceAll ftpScheme httpsScheme h
      let xml_file_url := base_url ++ (accession ++ familyTgz)
      let dl := download_and_extract env.fh st.fh base_url accession
      let samples : List SampleData :=
        match dl.1 with
        | some p => process_xml_file (env.parseXml p)
        | none => []
      match mkBaseData keyword accession result_soup xml_file_url dl.1 with
      | .error e => .error e
      | .ok base =>
        .ok (samples.map (fun s => dictUnion base (sampleRow s)), { st with fh := dl.2.1 })
  | none =>
    match mkBaseData keyword accession result_soup notFound (some failedVal) with
    | .error e => .error e
    | .ok base =>
      .ok (([] : List SampleData).map (fun s => dictUnion base (sampleRow s)), st)

/-- The samples_data the source computes for one result link (the
SampleRecords of the accession): the sample list of geo_scraper.py
lines 142-159, read off without the row building. -/
def samplesFor (env : GeoEnv) (st : GeoState) (href : Str) : List SampleData :=
  let result_page_url := ncbiHost ++ href
  let accession := extractAcc result_page_url
  match env.detailFetch result_page_url with
  | .error _ => []
  | .ok result_soup =>
    match findAString result_soup minimlLabel with
    | some a =>
      match a.attrs.lookup hrefAttr with
      | none => []
      | some h =>
        let base_url := replaceAll ftpScheme httpsScheme h
        match (download_and_extract env.fh st.fh base_url accession).1 with
        | some p => process_xml_file (env.parseXml p)
        | none => []
    | none => []

/-- The per-keyword result loop of geo_scraper.py lines 129-192: after
each accession the whole accumulated results list is flushed to the
Tabular Sink. -/
def processLinks (env : GeoEnv) (keyword : Str) :
    List Str → List Row → GeoState → Except Str (List Row × GeoState)
  | [], results, st => .ok (results, st)
  | href :: rest, results, st =>
    match processLink env keyword st href with
    | .error e => .error e
    | .ok r =>
      processLinks env keyword rest (results ++ r.1)
        { r.2 with fs := save_to_excel env.xlsxSize r.2.fs (results ++ r.1) }

/-- The keyword loop of geo_scraper.py lines 123-128: the search page
fetch is unguarded, then every selected result link is processed. -/
def scrape_geo_loop (env : GeoEnv) :
    List (Str × Str) → List Row → GeoState → Except Str (List Row × GeoState)
  | [], results, st => .ok (results, st)
  | (kw, url) :: rest, results, st =>
    match env.searchFetch url with
    | .error e => .error e
    | .ok page =>
      match processLinks env kw (selectAccLinks page) results st with
      | .error e => .error e
      | .ok r => scrape_geo_loop env rest r.1 r.2

def initState : GeoState := { fh := { outFiles := [], xmlFiles := [] }, fs := [] }

/-- scrape_geo from src/scrapers/geo_scraper.py lines 119-194, run over
a configured keyword-to-URL list. -/
def scrape_geo (env : GeoEnv) (cfg : List (Str × Str)) : Except Str (List Row × GeoState) :=
  scrape_geo_loop env cfg [] initState

/-- GEO_SEARCH_URLS from src/config.py. -/
def GEO_SEARCH_URLS : List (Str × Str) :=
  [("single-cell".data,
    "http://www.ncbi.nlm.nih.gov/gds?term=(single-cell)%20AND%20homo%20sapiens[Organism]".data),
   ("metastatic cancer".data,
    "http://www.ncbi.nlm.nih.gov/gds?term=(metastatic%20cancer)%20AND%20homo%20sapiens[Organism]".data),
   ("tumor microenvironment".data,
    "http://www.ncbi.nlm.nih.gov/gds?term=(tumor%20microenvironment)%20AND%20homo%20sapiens[Organism]".data)]

/-- The accumulate-and-flush pattern of geo_scraper.py lines 187-192
composed with save_to_excel, at the level of the per-accession row
batches: each step appends the accession's rows to the running results
list and flushes the whole list to the sink. -/
def crawlFlushLoop (szFn : Frame → Nat) :
    List (List Row) → List Row → List (Option Frame) → List Row × List (Option Frame)
  | [], results, fs => (results, fs)
  | b :: bs, results, fs =>
      crawlFlushLoop szFn bs (results ++ b) (save_to_excel szFn fs (results ++ b))

/-- The rows a single file accumulates when every flush of
crawlFlushLoop appends the running results list: flush j adds batches
1..j over again. -/
def flushTrace (acc : List Row) : List (List Row) → List Row
  | [] => []
  | b :: bs => (acc ++ b) ++ flushTrace (acc ++ b) bs

/-- How many rows of the list carry the given accession number. -/
def countAcc (a : Str) (rs : List Row) : Nat :=
  (rs.filter (fun r => cellVal r colAccession == some a)).length

/-- The rows stored in the first numbered output file. -/
def firstFileRows (fs : List (Option Frame)) : List Row :=
  match getFile fs 1 with
  | some f => f.rows
  | none => []

/-- The page conditions under which scrape_geo's own body cannot raise:
a found MINiML anchor has an href, and a found Contributor(s) or
Platforms row has a following td sibling. -/
def wellFormedPage (p : Node) : Bool :=
  (match findAString p minimlLabel with
   | some a => (a.attrs.lookup hrefAttr).isSome
   | none => true) &&
  (match findTdF colContrib p.children with
   | some (_, later) => (nextSiblingTd later).isSome
   | none => true) &&
  (match findTdF colPlatforms p.children with
   | some (_, later) => (nextSiblingTd later).isSome
   | none => true)

/-! ## Concrete runs

Small concrete environments, documents and frames on which the theorems
below are instantiated. -/

def gse1 : Str := "GSE1".data
def gsm1 : Str := "GSM1".data
def baseU : Str := "https://h/".data
def fh0 : FHState := { outFiles := [], xmlFiles := [] }
def kwOne : Str := "kw".data
def urlOne : Str := "http://search".data
def cfgOne : List (Str × Str) := [(kwOne, urlOne)]
def netErr : Str := "NetworkError".data

/-- A probe that advertises a 40 MB archive; download and tar never
reached. -/
def envC5 : FHEnv :=
  { headSize := fun _ => .ok (40 * 1024 * 1024),
    getOk := fun _ => .error [],
    tarMembers := fun _ => .error [] }

def memberA : Str := "sub/a.xml".data
def memberB : Str := "b.xml".data
def aXmlName : Str := "a.xml".data

/-- A small archive holding two .xml members behind a successful probe
and download. -/
def envC7 : FHEnv :=
  { headSize := fun _ => .ok 0,
    getOk := fun _ => .ok (),
    tarMembers := fun _ => .ok [memberA, memberB] }

def rowAcc : Row := [(colAccession, some gse1)]

/-- A spreadsheet size model charging 25 MB per stored row. -/
def szRows : Frame → Nat := fun f => f.rows.length * 26214400

/-- One existing output file whose two rows put it exactly at the 50 MB
threshold, hence still within it. -/
def fsHalf : List (Option Frame) := [some { cols := geoColumns, rows := [rowAcc, rowAcc] }]

def szZero : Frame → Nat := fun _ => 0

def gse2 : Str := "GSE2".data
def rowAcc2 : Row := [(colAccession, some gse2)]

/-- Two accessions, one row each, as per-accession batches. -/
def batchesTwo : List (Str × List Row) := [(gse1, [rowAcc]), (gse2, [rowAcc2])]

def htmlTag : Str := "html".data
def trTag : Str := "tr".data

def emptyPage : Node := .mk htmlTag [] none .nil

def tValText : Str := "T".data

def tdTitleCell : Node := .mk tdTag [] (some colTitle) .nil

def tdTitleVal : Node := .mk tdTag [] (some tValText) .nil

/-- A detail page with a Title row and no MINiML download link. -/
def pageNoMiniml : Node :=
  .mk htmlTag [] none (forestOf [.mk trTag [] none (forestOf [tdTitleCell, tdTitleVal])])

def nopeLabel : Str := "No Such Label".data

/-- An environment whose detail pages all lack the download link. -/
def envC1 : GeoEnv :=
  { searchFetch := fun _ => .error [],
    detailFetch := fun _ => .ok pageNoMiniml,
    fh := { headSize := fun _ => .error [], getOk := fun _ => .error [],
            tarMembers := fun _ => .error [] },
    parseXml := fun _ => .error [],
    xlsxSize := fun _ => 0 }

def hrefC1 : Str := "/geo/query/acc.cgi?acc=GSE123".data

/-- An environment whose very first search fetch fails with a network
error. -/
def envBadSearch : GeoEnv :=
  { searchFetch := fun _ => .error netErr,
    detailFetch := fun _ => .error [],
    fh := { headSize := fun _ => .error [], getOk := fun _ => .error [],
            tarMembers := fun _ => .error [] },
    parseXml := fun _ => .error [],
    xlsxSize := fun _ => 0 }

/-- An environment whose fetches all succeed (with empty pages) while
every deeper external call fails. -/
def envGood : GeoEnv :=
  { searchFetch := fun _ => .ok emptyPage,
    detailFetch := fun _ => .ok emptyPage,
    fh := { headSize := fun _ => .error [], getOk := fun _ => .error [],
            tarMembers := fun _ => .error [] },
    parseXml := fun _ => .error [],
    xlsxSize := fun _ => 0 }

def miniMLRootTag : Str := "\x7bhttp://www.ncbi.nlm.nih.gov/geo/info/MINiML\x7dMINiML".data

/-- A Sample element with an iid and no Characteristics at all. -/
def c4sample : Node := .mk nsSample [(iidAttr, gsm1)] none .nil

/-- A parsed MINiML document holding that single Sample. -/
def c4doc : Node := .mk miniMLRootTag [] none (forestOf [c4sample])

/-! ## Helper lemmas -/

theorem not_mem_filter_bne (l : List Str) (a : Str) : a ∉ l.filter (fun f => !(f == a)) := by
  simp

theorem extractLoop_spec (exp : Str) : ∀ (members : List Str) (st : FHState),
    (members.filter (fun m => xmlExt.isSuffixOf m) = [] →
      extractLoop st exp members = (none, st, [])) ∧
    (∀ m ms, members.filter (fun m => xmlExt.isSuffixOf m) = m :: ms →
      (basename m ∈ st.xmlFiles → extractLoop st exp members = (some exp, st, [])) ∧
      (basename m ∉ st.xmlFiles →
        extractLoop st exp members =
          (some exp, { st with xmlFiles := st.xmlFiles ++ [basename m] },
            [FHEvent.extract (basename m)]))) := by
  intro members
  induction members with
  | nil =>
      intro st
      exact ⟨fun _ => rfl, fun m ms h => by simp at h⟩
  | cons x rest ih =>
      intro st
      by_cases hx : xmlExt.isSuffixOf x
      · constructor
        · intro h
          rw [List.filter_cons_of_pos (by simpa using hx)] at h
          simp at h
        · intro m ms h
          rw [List.filter_cons_of_pos (by simpa using hx)] at h
          obtain ⟨rfl, rfl⟩ : m = x ∧ ms = rest.filter (fun m => xmlExt.isSuffixOf m) :=
            ⟨(List.cons.injEq _ _ _ _ ▸ h).1.symm, (List.cons.injEq _ _ _ _ ▸ h).2.symm⟩
          constructor
          · intro hmem
            simp only [extractLoop, hx, if_true, if_pos hmem]
          · intro hmem
            simp only [extractLoop, hx, if_true, if_neg hmem]
      · have hfilter : (x :: rest).filter (fun m => xmlExt.isSuffixOf m) =
            rest.filter (fun m => xmlExt.isSuffixOf m) :=
          List.filter_cons_of_neg (by simpa using hx)
        have hstep : extractLoop st exp (x :: rest) = extractLoop st exp rest := by
          simp only [extractLoop, hx, if_false]
          simp [hx]
        refine ⟨fun h => ?_, fun m ms h => ?_⟩
        · rw [hstep]
          exact (ih st).1 (hfilter ▸ h)
        · rw [hstep]
          exact (ih st).2 m ms (hfilter ▸ h)

/-! ## C5: oversized archives are skipped -/

/-- C5: when the probed size of the archive exceeds the 30 MB ceiling,
download_and_extract_from_url returns None, performs no download,
leaves the extraction directory untouched, and reports the outcome as
the too-large policy skip rather than a caught error. -/
theorem c5_oversize_skip (env : FHEnv) (st : FHState) (base acc : Str) (n : Nat)
    (hp : env.headSize (base ++ (acc ++ familyTgz)) = .ok n)
    (hn : sizeCeiling < n) :
    (download_and_extract env st base acc).1 = none ∧
    (∀ u, FHEvent.download u ∉ (download_and_extract env st base acc).2.2) ∧
    FHEvent.skippedTooLarge ∈ (download_and_extract env st base acc).2.2 ∧
    FHEvent.caughtError ∉ (download_and_extract env st base acc).2.2 ∧
    (download_and_extract env st base acc).2.1.xmlFiles = st.xmlFiles := by
  simp only [download_and_extract, hp]
  rw [if_pos hn]
  refine ⟨rfl, ?_, by simp, by simp, rfl⟩
  intro u hmem
  simp at hmem

/-- C5 witness: a 40 MB archive is skipped with no download. -/
theorem c5_witness :
    (download_and_extract envC5 fh0 baseU gse1).1 = none ∧
    (∀ u, FHEvent.download u ∉ (download_and_extract envC5 fh0 baseU gse1).2.2) ∧
    FHEvent.skippedTooLarge ∈ (download_and_extract envC5 fh0 baseU gse1).2.2 ∧
    FHEvent.caughtError ∉ (download_and_extract envC5 fh0 baseU gse1).2.2 ∧
    (download_and_extract envC5 fh0 baseU gse1).2.1.xmlFiles = fh0.xmlFiles :=
  c5_oversize_skip envC5 fh0 baseU gse1 (40 * 1024 * 1024) rfl (by norm_num [sizeCeiling])

/-! ## C6: the scratch archive never survives -/

/-- C6: on every return of download_and_extract_from_url — success,
skip, or failure — the scratch .tgz file is gone from the working
directory: the finally block removes it unconditionally. -/
theorem c6_scratch_removed (env : FHEnv) (st : FHState) (base acc : Str) :
    dataDirPath ++ (acc ++ familyTgz) ∉ (download_and_extract env st base acc).2.1.outFiles :=
  not_mem_filter_bne _ _

/-! ## C7: extraction takes only the first matching member -/

/-- C7 counterexample: an archive with two .xml members.  The second
matching member is neither extracted to the destination directory nor
reported by an extraction event, because the loop returns right after
handling the first match — refuting the claim that every member whose
name ends in .xml is extracted. -/
theorem c7_counterexample :
    memberB ∈ [memberA, memberB] ∧ xmlExt.isSuffixOf memberB = true ∧
    basename memberB ∉ (download_and_extract envC7 fh0 baseU gse1).2.1.xmlFiles ∧
    FHEvent.extract (basename memberB) ∉ (download_and_extract envC7 fh0 baseU gse1).2.2 := by
  decide

/-- C7 amended: after a successful probe, download and archive open,
only the first member whose name ends in .xml is considered: its path
is flattened to a bare filename and it is extracted unless that file
already exists (existing files are never overwritten), and the expected
extracted path is returned; with no matching member the function
returns None. -/
theorem c7_first_match (env : FHEnv) (st : FHState) (base acc : Str) (n : Nat)
    (members : List Str)
    (hp : env.headSize (base ++ (acc ++ familyTgz)) = .ok n)
    (hn : n ≤ sizeCeiling)
    (hg : env.getOk (base ++ (acc ++ familyTgz)) = .ok ())
    (ht : env.tarMembers (base ++ (acc ++ familyTgz)) = .ok members) :
    (members.filter (fun m => xmlExt.isSuffixOf m) = [] →
      (download_and_extract env st base acc).1 = none ∧
      (download_and_extract env st base acc).2.1.xmlFiles = st.xmlFiles) ∧
    (∀ m ms, members.filter (fun m => xmlExt.isSuffixOf m) = m :: ms →
      (download_and_extract env st base acc).1 = some (xmlDirPath ++ (acc ++ familyXml)) ∧
      (basename m ∈ st.xmlFiles →
        (download_and_extract env st base acc).2.1.xmlFiles = st.xmlFiles) ∧
      (basename m ∉ st.xmlFiles →
        (download_and_extract env st base acc).2.1.xmlFiles = st.xmlFiles ++ [basename m])) := by
  have hspec := extractLoop_spec (xmlDirPath ++ (acc ++ familyXml)) members
    { st with outFiles := st.outFiles ++ [dataDirPath ++ (acc ++ familyTgz)] }
  simp only [download_and_extract, hp, hg, ht]
  rw [if_neg (Nat.not_lt.mpr hn)]
  constructor
  · intro h
    rw [(hspec).1 h]
    exact ⟨rfl, rfl⟩
  · intro m ms h
    have h2 := (hspec).2 m ms h
    by_cases hmem : basename m ∈ st.xmlFiles
    · rw [h2.1 hmem]
      exact ⟨rfl, fun _ => rfl, fun hc => absurd hmem hc⟩
    · rw [h2.2 hmem]
      exact ⟨rfl, fun hc => absurd hc hmem, fun _ => rfl⟩

/-- C7 witness: with the two-member archive and an empty destination,
the first member's flattened name is extracted and the expected path is
returned. -/
theorem c7_witness :
    (download_and_extract envC7 fh0 baseU gse1).1 = some (xmlDirPath ++ (gse1 ++ familyXml)) ∧
    (download_and_extract envC7 fh0 baseU gse1).2.1.xmlFiles = fh0.xmlFiles ++ [basename memberA] := by
  have h := (c7_first_match envC7 fh0 baseU gse1 0 [memberA, memberB] rfl (Nat.zero_le _)
    rfl rfl).2 memberA [memberB] (by decide)
  exact ⟨h.1, h.2.2 (by decide)⟩

/-! ## Lemmas on the Tabular Sink -/

theorem findFile_succ (szFn : Frame → Nat) :
    ∀ (fs : List (Option Frame)) (i : Nat), findFile szFn fs (i + 1) = findFile szFn fs i + 1 := by
  intro fs
  induction fs with
  | nil => intro i; rfl
  | cons x rest ih =>
      intro i
      cases x with
      | none => rfl
      | some f =>
          simp only [findFile]
          by_cases h : szFn f > threshold
          · rw [if_pos h, if_pos h, ih]
          · rw [if_neg h, if_neg h]

theorem findFile_pos (szFn : Frame → Nat) :
    ∀ fs : List (Option Frame), 1 ≤ findFile szFn fs 1 := by
  intro fs
  cases fs with
  | nil => exact le_refl 1
  | cons x rest =>
      cases x with
      | none => exact le_refl 1
      | some f =>
          simp only [findFile]
          by_cases h : szFn f > threshold
          · rw [if_pos h, findFile_succ]
            omega
          · rw [if_neg h]

theorem backfill_rows : ∀ (cs : List Str) (f : Frame), (backfill f cs).rows = f.rows := by
  intro cs
  induction cs with
  | nil => intro f; rfl
  | cons c cs ih =>
      intro f
      simp only [backfill]
      by_cases h : c ∈ f.cols
      · rw [if_pos h]; exact ih f
      · rw [if_neg h]; exact ih _

theorem backfill_cols_mem : ∀ (cs : List Str) (f : Frame) (c : Str),
    c ∈ cs ∨ c ∈ f.cols → c ∈ (backfill f cs).cols := by
  intro cs
  induction cs with
  | nil =>
      intro f c h
      rcases h with h | h
      · cases h
      · exact h
  | cons c' cs ih =>
      intro f c h
      simp only [backfill]
      by_cases h' : c' ∈ f.cols
      · rw [if_pos h']
        apply ih
        rcases h with h | h
        · rcases List.mem_cons.mp h with rfl | h
          · exact Or.inr h'
          · exact Or.inl h
        · exact Or.inr h
      · rw [if_neg h']
        apply ih
        rcases h with h | h
        · rcases List.mem_cons.mp h with rfl | h
          · exact Or.inr (by simp)
          · exact Or.inl h
        · exact Or.inr (by simp [h])

theorem getFile_setFile (fs : List (Option Frame)) (i : Nat) (f : Frame) (hi : 1 ≤ i) :
    getFile (setFile fs i f) i = some f := by
  unfold getFile setFile
  have hlen : i - 1 < (fs ++ List.replicate (i - fs.length) none).length := by
    simp only [List.length_append, List.length_replicate]
    omega
  rw [List.getD_eq_getElem?_getD, List.getElem?_set_eq_of_lt _ hlen]
  rfl

/-! ## C3: target file selection and the size threshold -/

/-- C3 counterexample: rollover consults sizes only before the write,
so a flush can push a file past the threshold.  With a size model of
25 MB per row, a file of two rows sits exactly at the 50 MB threshold
and is therefore selected; after appending one row the rewritten file
measures 75 MB, refuting the invariant that no output file's size ever
exceeds the threshold. -/
theorem c3_counterexample :
    ((getFile (save_to_excel szRows fsHalf [rowAcc]) 1).map szRows).getD 0 = 78643200 ∧
    threshold < 78643200 := by
  constructor
  · decide
  · decide

/-- C3 amended: each flush re-scans the numbered candidates in order
and selects the first that does not exist or whose current size at that
moment is within the 50 MB threshold — every candidate skipped over
exists and exceeds the threshold.  The selected file's size is only
bounded before the write; the rewritten file itself may end up past the
threshold (it is then rolled over at the next flush). -/
theorem c3_first_fit (szFn : Frame → Nat) (fs : List (Option Frame)) :
    (getFile fs (findFile szFn fs 1) = none ∨
      ∃ f, getFile fs (findFile szFn fs 1) = some f ∧ szFn f ≤ threshold) ∧
    (∀ j, 1 ≤ j → j < findFile szFn fs 1 →
      ∃ f, getFile fs j = some f ∧ threshold < szFn f) := by
  induction fs with
  | nil =>
      refine ⟨Or.inl rfl, ?_⟩
      intro j h1 h2
      simp only [findFile] at h2
      omega
  | cons x rest ih =>
      cases x with
      | none =>
          refine ⟨Or.inl rfl, ?_⟩
          intro j h1 h2
          simp only [findFile] at h2
          omega
      | some f =>
          by_cases h : szFn f > threshold
          · have heq : findFile szFn (some f :: rest) 1 = findFile szFn rest 1 + 1 := by
              simp only [findFile]
              rw [if_pos h, findFile_succ]
            have hk := findFile_pos szFn rest
            have hshift : getFile (some f :: rest) (findFile szFn rest 1 + 1) =
                getFile rest (findFile szFn rest 1) := by
              unfold getFile
              obtain ⟨k', hk'⟩ : ∃ k', findFile szFn rest 1 = k' + 1 :=
                ⟨findFile szFn rest 1 - 1, by omega⟩
              rw [hk']
              simp [List.getD]
            constructor
            · rw [heq, hshift]
              exact ih.1
            · intro j h1 h2
              rw [heq] at h2
              rcases Nat.lt_or_ge 1 j with hj | hj
              · obtain ⟨j', rfl⟩ : ∃ j', j = j' + 1 := ⟨j - 1, by omega⟩
                have hshift' : getFile (some f :: rest) (j' + 1) = getFile rest j' := by
                  unfold getFile
                  obtain ⟨j'', rfl⟩ : ∃ j'', j' = j'' + 1 := ⟨j' - 1, by omega⟩
                  simp [List.getD]
                rw [hshift']
                exact ih.2 j' (by omega) (by omega)
              · have hj1 : j = 1 := by omega
                subst hj1
                exact ⟨f, rfl, h⟩
          · have heq : findFile szFn (some f :: rest) 1 = 1 := by
              simp only [findFile]
              rw [if_neg h]
            constructor
            · rw [heq]
              exact Or.inr ⟨f, rfl, Nat.not_lt.mp h⟩
            · intro j h1 h2
              rw [heq] at h2
              omega

/-- C3 witness: a concrete selection satisfying the first-fit
property. -/
theorem c3_witness :
    getFile fsHalf (findFile szRows fsHalf 1) = none ∨
      ∃ f, getFile fsHalf (findFile szRows fsHalf 1) = some f ∧ szRows f ≤ threshold :=
  (c3_first_fit szRows fsHalf).1

/-! ## C8: declared columns are never dropped -/

/-- C8: every flush writes a frame containing every declared column
(the back-fill loop appends any missing one), keeps every appended row,
and a row shows null in every column whose key it lacks. -/
theorem c8_all_columns (szFn : Frame → Nat) (fs : List (Option Frame)) (data : List Row) :
    ∃ f, getFile (save_to_excel szFn fs data) (findFile szFn fs 1) = some f ∧
      (∀ c ∈ geoColumns, c ∈ f.cols) ∧
      (∀ r ∈ data, r ∈ f.rows) ∧
      (∀ r ∈ data, ∀ c, r.lookup c = none → cellVal r c = none) := by
  unfold save_to_excel
  refine ⟨_, getFile_setFile fs _ _ (findFile_pos szFn fs), ?_, ?_, ?_⟩
  · intro c hc
    exact backfill_cols_mem geoColumns _ c (Or.inl hc)
  · intro r hr
    rw [backfill_rows]
    simp only [concatFrames, frameOfRows]
    exact List.mem_append.mpr (Or.inr hr)
  · intro r hr c hc
    simp [cellVal, hc]

/-- C8 witness: a concrete flush of one sparse row into a fresh sink. -/
theorem c8_witness :
    ∃ f, getFile (save_to_excel szZero [] [rowAcc]) (findFile szZero [] 1) = some f ∧
      (∀ c ∈ geoColumns, c ∈ f.cols) ∧
      (∀ r ∈ [rowAcc], r ∈ f.rows) ∧
      (∀ r ∈ [rowAcc], ∀ c, r.lookup c = none → cellVal r c = none) :=
  c8_all_columns szZero [] [rowAcc]

/-! ## Lemmas on the Sample Parser -/

theorem foldl_applyChar_tissue : ∀ (cs : List Node) (sd : SampleData),
    (cs.all (fun c => !(strLower ((c.attrs.lookup tagAttr).getD []) == tissueTag))) = true →
    (cs.foldl applyChar sd).tissue = sd.tissue := by
  intro cs
  induction cs with
  | nil => intro sd _; rfl
  | cons c cs ih =>
      intro sd h
      rw [List.all_cons, Bool.and_eq_true] at h
      obtain ⟨h1, h2⟩ := h
      simp only [List.foldl_cons]
      rw [ih _ h2]
      have hne : ¬ strLower ((c.attrs.lookup tagAttr).getD []) = tissueTag := by
        simpa using h1
      unfold applyChar
      rw [if_neg hne]
      by_cases h3 : strLower ((c.attrs.lookup tagAttr).getD []) = cellLineTag
      · rw [if_pos h3]
      · rw [if_neg h3]

/-! ## C4: one record per Sample, and the missing-tissue default -/

/-- C4 counterexample: a Sample element with no Characteristics at all
is parsed into a record whose Tissue field is None (the Python None the
dict is initialised with), not the string "Not Available" the claim
requires. -/
theorem c4_counterexample :
    process_xml_file (Except.ok c4doc) =
      [{ sampleId := gsm1, tissue := none, cellLine := none }] ∧
    (process_xml_file (Except.ok c4doc)).map SampleData.tissue ≠ [some notAvailable] := by
  constructor
  · decide
  · decide

/-- C4 amended: the Sample Parser returns exactly one record per Sample
element in document order; a Sample with no tissue-tagged
Characteristics keeps its Tissue field as the absent marker None, while
"Not Available" is used only when a tissue-tagged Characteristics is
present with missing or empty text. -/
theorem c4_order_and_default (root : Node) :
    ((process_xml_file (Except.ok root)).length = (findSamples root).length) ∧
    (∀ i : Nat, (process_xml_file (Except.ok root))[i]? = ((findSamples root)[i]?).map sampleOf) ∧
    (∀ s : Node,
      ((charsOf s).all
        (fun c => !(strLower ((c.attrs.lookup tagAttr).getD []) == tissueTag))) = true →
      (sampleOf s).tissue = none) := by
  refine ⟨?_, ?_, ?_⟩
  · simp [process_xml_file]
  · intro i
    simp [process_xml_file]
  · intro s h
    unfold sampleOf
    exact foldl_applyChar_tissue (charsOf s) _ h

/-- C4 witness: the one-Sample document yields one record, and its
characteristics-free Sample parses with Tissue = None. -/
theorem c4_witness :
    ((process_xml_file (Except.ok c4doc)).length = (findSamples c4doc).length) ∧
    (sampleOf c4sample).tissue = none :=
  ⟨(c4_order_and_default c4doc).1, (c4_order_and_default c4doc).2.2 c4sample (by decide)⟩

/-! ## Lemmas on the Field Extractor -/

mutual
theorem findTdN_of_absent (label : Str) :
    ∀ (n : Node) (later : Forest),
      ((allNodesN n).any (fun m => m.tag == tdTag && m.text == some label)) = false →
      findTdN label n later = none
  | .mk t a s c, later, h => by
      simp only [allNodesN, List.any_cons, Bool.or_eq_false_iff] at h
      obtain ⟨h1, h2⟩ := h
      simp only [findTdN]
      rw [if_neg (by simpa [Node.tag, Node.text] using h1)]
      exact findTdF_of_absent label c h2
theorem findTdF_of_absent (label : Str) :
    ∀ (fr : Forest),
      ((allNodesF fr).any (fun m => m.tag == tdTag && m.text == some label)) = false →
      findTdF label fr = none
  | .nil, _ => rfl
  | .cons n rest, h => by
      simp only [allNodesF, List.any_append, Bool.or_eq_false_iff] at h
      obtain ⟨h1, h2⟩ := h
      simp only [findTdF]
      rw [findTdN_of_absent label n rest h1, findTdF_of_absent label rest h2]
end

/-! ## C9: missing labels give the absent marker and never raise -/

/-- C9: for any detail document and any label not present in it
(no td element carries that string), get_text_or_none returns None, and
the anchor-aggregation extractors for Contributor(s) and Platforms
return Ok None — no exception is raised for a missing label. -/
theorem c9_absent_label (soup : Node) (label : Str) :
    (tdPresent soup label = false → get_text_or_none soup label = none) ∧
    (tdPresent soup colContrib = false → get_contributors soup = .ok none) ∧
    (tdPresent soup colPlatforms = false → get_platforms soup = .ok none) := by
  refine ⟨fun h => ?_, fun h => ?_, fun h => ?_⟩
  · unfold get_text_or_none
    rw [findTdF_of_absent label _ (by simpa [tdPresent] using h)]
  · unfold get_contributors
    rw [findTdF_of_absent colContrib _ (by simpa [tdPresent] using h)]
  · unfold get_platforms
    rw [findTdF_of_absent colPlatforms _ (by simpa [tdPresent] using h)]

/-- C9 witness: on a concrete page holding only a Title row, a missing
label and the two aggregation extractions all return the absent
marker. -/
theorem c9_witness :
    get_text_or_none pageNoMiniml nopeLabel = none ∧
    get_contributors pageNoMiniml = .ok none ∧
    get_platforms pageNoMiniml = .ok none :=
  ⟨(c9_absent_label pageNoMiniml nopeLabel).1 (by decide),
   (c9_absent_label pageNoMiniml nopeLabel).2.1 (by decide),
   (c9_absent_label pageNoMiniml nopeLabel).2.2 (by decide)⟩

/-! ## C1: the shape of the per-accession merged rows -/

/-- C1 counterexample: an accession whose detail page has no download
link produces zero merged rows, not the single empty-sample row the
claim requires — the sample loop iterates over an empty samples_data
and appends nothing. -/
theorem c1_counterexample :
    (processLink envC1 kwOne initState hrefC1).toOption.map (fun p => p.1.length) = some 0 ∧
    (processLink envC1 kwOne initState hrefC1).toOption.map (fun p => p.1.length) ≠ some 1 := by
  constructor
  · decide
  · decide

/-- C1 amended: the rows a processed accession appends are exactly one
merged row per SampleRecord the Sample Parser produced (the Cartesian
join of the one base record with the sample records, in sample order);
when there are no SampleRecords — download link missing, download
failed, or the parsed file held no samples — the accession appends no
row at all. -/
theorem c1_join_shape (env : GeoEnv) (kw : Str) (st : GeoState) (href : Str)
    (out : List Row × GeoState) (h : processLink env kw st href = .ok out) :
    (∃ base : Row,
      out.1 = (samplesFor env st href).map (fun s => dictUnion base (sampleRow s))) ∧
    (samplesFor env st href = [] → out.1 = []) := by
  simp only [processLink] at h
  simp only [samplesFor]
  cases hf : env.detailFetch (ncbiHost ++ href) with
  | error e =>
      simp only [hf] at h
      cases h
  | ok soup =>
      simp only [hf] at h ⊢
      cases hm : findAString soup minimlLabel with
      | none =>
          simp only [hm] at h ⊢
          split at h
          · cases h
          · next base _ =>
              cases h
              exact ⟨⟨base, rfl⟩, fun _ => rfl⟩
      | some a =>
          simp only [hm] at h ⊢
          cases hl : a.attrs.lookup hrefAttr with
          | none =>
              simp only [hl] at h
              cases h
          | some hu =>
              simp only [hl] at h ⊢
              split at h
              · cases h
              · next base _ =>
                  cases h
                  refine ⟨⟨base, rfl⟩, fun hempty => ?_⟩
                  simp only [hempty, List.map_nil]

/-- C1 witness: the no-download-link accession appends the empty row
list, matching the empty sample list. -/
theorem c1_witness :
    (∃ base : Row,
      (([], initState) : List Row × GeoState).1 =
        (samplesFor envC1 initState hrefC1).map (fun s => dictUnion base (sampleRow s))) ∧
    (samplesFor envC1 initState hrefC1 = [] →
      (([], initState) : List Row × GeoState).1 = []) :=
  c1_join_shape envC1 kwOne initState hrefC1 ([], initState) rfl

/-! ## Lemmas on the Search Crawler -/

theorem wfp_parts (p : Node) (h : wellFormedPage p = true) :
    (∀ a, findAString p minimlLabel = some a → (a.attrs.lookup hrefAttr).isSome = true) ∧
    (∀ nd later, findTdF colContrib p.children = some (nd, later) →
      (nextSiblingTd later).isSome = true) ∧
    (∀ nd later, findTdF colPlatforms p.children = some (nd, later) →
      (nextSiblingTd later).isSome = true) := by
  unfold wellFormedPage at h
  rw [Bool.and_eq_true, Bool.and_eq_true] at h
  obtain ⟨⟨h1, h2⟩, h3⟩ := h
  refine ⟨fun a ha => ?_, fun nd later he => ?_, fun nd later he => ?_⟩
  · rw [ha] at h1; exact h1
  · rw [he] at h2; exact h2
  · rw [he] at h3; exact h3

theorem mkBaseData_ok (kw acc : Str) (soup : Node) (xu : Str) (xp : Option Str)
    (hwf : wellFormedPage soup = true) : ∃ b, mkBaseData kw acc soup xu xp = .ok b := by
  obtain ⟨-, h2, h3⟩ := wfp_parts soup hwf
  unfold mkBaseData get_contributors get_platforms
  cases hc : findTdF colContrib soup.children with
  | none =>
      cases hpf : findTdF colPlatforms soup.children with
      | none => exact ⟨_, rfl⟩
      | some pr =>
          obtain ⟨nd, later⟩ := pr
          obtain ⟨sib, hsib⟩ := Option.isSome_iff_exists.mp (h3 nd later hpf)
          simp only [hsib]
          exact ⟨_, rfl⟩
  | some pr =>
      obtain ⟨nd, later⟩ := pr
      obtain ⟨sib, hsib⟩ := Option.isSome_iff_exists.mp (h2 nd later hc)
      simp only [hsib]
      cases hpf : findTdF colPlatforms soup.children with
      | none => exact ⟨_, rfl⟩
      | some pr' =>
          obtain ⟨nd', later'⟩ := pr'
          obtain ⟨sib', hsib'⟩ := Option.isSome_iff_exists.mp (h3 nd' later' hpf)
          simp only [hsib']
          exact ⟨_, rfl⟩

theorem processLink_ok (env : GeoEnv) (kw : Str) (st : GeoState) (href : Str)
    (hd : ∀ u, ∃ p, env.detailFetch u = .ok p ∧ wellFormedPage p = true) :
    ∃ out, processLink env kw st href = .ok out := by
  obtain ⟨p, hp, hwf⟩ := hd (ncbiHost ++ href)
  obtain ⟨h1, -, -⟩ := wfp_parts p hwf
  simp only [processLink, hp]
  cases hm : findAString p minimlLabel with
  | none =>
      obtain ⟨b, hb⟩ := mkBaseData_ok kw (extractAcc (ncbiHost ++ href)) p notFound
        (some failedVal) hwf
      simp only [hb]
      exact ⟨_, rfl⟩
  | some a =>
      obtain ⟨hu, hhu⟩ := Option.isSome_iff_exists.mp (h1 a hm)
      simp only [hhu]
      obtain ⟨b, hb⟩ := mkBaseData_ok kw (extractAcc (ncbiHost ++ href)) p
        (replaceAll ftpScheme httpsScheme hu ++ (extractAcc (ncbiHost ++ href) ++ familyTgz))
        (download_and_extract env.fh st.fh (replaceAll ftpScheme httpsScheme hu)
          (extractAcc (ncbiHost ++ href))).1 hwf
      simp only [hb]
      exact ⟨_, rfl⟩

theorem processLinks_ok (env : GeoEnv) (kw : Str)
    (hd : ∀ u, ∃ p, env.detailFetch u = .ok p ∧ wellFormedPage p = true) :
    ∀ (hrefs : List Str) (results : List Row) (st : GeoState),
      ∃ out, processLinks env kw hrefs results st = .ok out := by
  intro hrefs
  induction hrefs with
  | nil => intro results st; exact ⟨_, rfl⟩
  | cons href rest ih =>
      intro results st
      obtain ⟨out, hout⟩ := processLink_ok env kw st href hd
      simp only [processLinks, hout]
      exact ih _ _

theorem scrape_geo_loop_ok (env : GeoEnv)
    (hs : ∀ u, ∃ p, env.searchFetch u = .ok p)
    (hd : ∀ u, ∃ p, env.detailFetch u = .ok p ∧ wellFormedPage p = true) :
    ∀ (cfg : List (Str × Str)) (results : List Row) (st : GeoState),
      ∃ out, scrape_geo_loop env cfg results st = .ok out := by
  intro cfg
  induction cfg with
  | nil => intro results st; exact ⟨_, rfl⟩
  | cons p rest ih =>
      intro results st
      obtain ⟨page, hpage⟩ := hs p.2
      obtain ⟨out, hout⟩ := processLinks_ok env p.1 hd (selectAccLinks page) results st
      simp only [scrape_geo_loop, hpage, hout]
      exact ih _ _

/-! ## C2: which external failures are caught -/

/-- C2 counterexample: the search-page fetch in scrape_geo is not
wrapped in any try/except, so a network failure there propagates out of
the crawl: the run aborts with the error instead of completing a pass
over the configured keywords. -/
theorem c2_counterexample : scrape_geo envBadSearch cfgOne = .error netErr := rfl

/-- C2 amended: the failures of the probe, download, extraction and
file-parse calls are caught inside their components and replaced by
sentinel values, so when every search-page and detail-page fetch
succeeds (on pages where a found MINiML anchor has an href and a found
Contributor(s) or Platforms row has its value cell), the crawl
completes a full pass over every configured keyword whatever those
inner calls do; the two page fetches themselves are unguarded. -/
theorem c2_guarded_inner_calls (env : GeoEnv) (cfg : List (Str × Str))
    (hs : ∀ u, ∃ p, env.searchFetch u = .ok p)
    (hd : ∀ u, ∃ p, env.detailFetch u = .ok p ∧ wellFormedPage p = true) :
    ∃ out, scrape_geo env cfg = .ok out :=
  scrape_geo_loop_ok env hs hd cfg [] initState

/-- C2 witness: with fetches that always succeed and every deeper
external call failing, the run still completes. -/
theorem c2_witness : ∃ out, scrape_geo envGood cfgOne = .ok out :=
  c2_guarded_inner_calls envGood cfgOne
    (fun _ => ⟨emptyPage, rfl⟩)
    (fun _ => ⟨emptyPage, rfl, by decide⟩)

/-! ## Lemmas on repeated flushing -/

theorem save_single_file (szFn : Frame → Nat) (hsz : ∀ f, szFn f ≤ threshold) :
    ∀ (fs : List (Option Frame)), (fs = [] ∨ ∃ f, fs = [some f]) →
    ∀ data, ∃ g, save_to_excel szFn fs data = [some g] ∧
      g.rows = firstFileRows fs ++ data := by
  intro fs hfs data
  rcases hfs with rfl | ⟨f, rfl⟩
  · refine ⟨_, rfl, ?_⟩
    rw [backfill_rows]
    rfl
  · have hff : findFile szFn [some f] 1 = 1 := by
      simp only [findFile]
      rw [if_neg (Nat.not_lt.mpr (hsz f))]
    refine ⟨backfill (concatFrames f (frameOfRows data)) geoColumns, ?_, ?_⟩
    · simp only [save_to_excel, hff]
      rfl
    · rw [backfill_rows]
      rfl

theorem crawl_single (szFn : Frame → Nat) (hsz : ∀ f, szFn f ≤ threshold) :
    ∀ (bs : List (List Row)) (results : List Row) (fs : List (Option Frame)),
      (fs = [] ∨ ∃ f, fs = [some f]) →
      firstFileRows (crawlFlushLoop szFn bs results fs).2 =
        firstFileRows fs ++ flushTrace results bs := by
  intro bs
  induction bs with
  | nil =>
      intro results fs hfs
      simp [crawlFlushLoop, flushTrace]
  | cons b bs ih =>
      intro results fs hfs
      obtain ⟨g, hg, hrows⟩ := save_single_file szFn hsz fs hfs (results ++ b)
      simp only [crawlFlushLoop, flushTrace, hg]
      rw [ih (results ++ b) [some g] (Or.inr ⟨g, rfl⟩)]
      rw [show firstFileRows [some g] = g.rows from rfl, hrows]
      simp [List.append_assoc]

theorem countAcc_append (a : Str) (xs ys : List Row) :
    countAcc a (xs ++ ys) = countAcc a xs + countAcc a ys := by
  simp [countAcc, List.filter_append]

theorem countAcc_tagged_ne (a t : Str) (b : List Row)
    (htag : ∀ r ∈ b, r.lookup colAccession = some (some t)) (hne : t ≠ a) :
    countAcc a b = 0 := by
  unfold countAcc
  rw [List.length_eq_zero, List.filter_eq_nil_iff]
  intro r hr
  have hc : cellVal r colAccession = some t := by
    simp [cellVal, htag r hr]
  simp [hc, hne]

theorem countAcc_tagged_eq (a : Str) (b : List Row)
    (htag : ∀ r ∈ b, r.lookup colAccession = some (some a)) :
    countAcc a b = b.length := by
  unfold countAcc
  rw [List.filter_eq_self.mpr]
  intro r hr
  have hc : cellVal r colAccession = some a := by
    simp [cellVal, htag r hr]
  simp [hc]

theorem countAcc_flushTrace_notin (a : Str) :
    ∀ (batches : List (Str × List Row)) (acc : List Row),
    (∀ p ∈ batches, ∀ r ∈ p.2, r.lookup colAccession = some (some p.1)) →
    a ∉ batches.map Prod.fst →
    countAcc a (flushTrace acc (batches.map Prod.snd)) = batches.length * countAcc a acc := by
  intro batches
  induction batches with
  | nil =>
      intro acc _ _
      simp [flushTrace, countAcc]
  | cons p rest ih =>
      intro acc htag hnmem
      simp only [List.map_cons, flushTrace]
      have hne : p.1 ≠ a := by
        intro he
        exact hnmem (by simp [← he])
      have hb0 : countAcc a p.2 = 0 :=
        countAcc_tagged_ne a p.1 p.2 (htag p (by simp)) hne
      rw [countAcc_append,
        ih (acc ++ p.2) (fun q hq => htag q (List.mem_cons_of_mem _ hq))
          (fun hmem => hnmem (by simp [hmem])),
        countAcc_append, hb0]
      simp only [List.length_cons]
      ring

theorem countAcc_flushTrace_main :
    ∀ (batches : List (Str × List Row)) (acc : List Row) (i : Nat) (hi : i < batches.length),
    (∀ p ∈ batches, ∀ r ∈ p.2, r.lookup colAccession = some (some p.1)) →
    (batches.map Prod.fst).Nodup →
    countAcc (batches.get ⟨i, hi⟩).1 acc = 0 →
    countAcc (batches.get ⟨i, hi⟩).1 (flushTrace acc (batches.map Prod.snd)) =
      (batches.length - i) * (batches.get ⟨i, hi⟩).2.length := by
  intro batches
  induction batches with
  | nil =>
      intro acc i hi
      exact absurd hi (by simp)
  | cons p rest ih =>
      intro acc i hi htag hnd hacc
      have htag_rest : ∀ q ∈ rest, ∀ r ∈ q.2, r.lookup colAccession = some (some q.1) :=
        fun q hq => htag q (List.mem_cons_of_mem _ hq)
      rw [List.map_cons, List.nodup_cons] at hnd
      cases i with
      | zero =>
          simp only [show (p :: rest).get ⟨0, hi⟩ = p from rfl] at hacc ⊢
          simp only [List.map_cons, flushTrace]
          rw [countAcc_append, countAcc_append]
          have hbeq : countAcc p.1 p.2 = p.2.length :=
            countAcc_tagged_eq _ _ (htag p (by simp))
          rw [countAcc_flushTrace_notin p.1 rest (acc ++ p.2) htag_rest hnd.1,
            countAcc_append, hacc, hbeq]
          simp only [List.length_cons, Nat.sub_zero]
          ring
      | succ j =>
          have hj : j < rest.length := by simpa using hi
          simp only [show (p :: rest).get ⟨j + 1, hi⟩ = rest.get ⟨j, hj⟩ from rfl] at hacc ⊢
          simp only [List.map_cons, flushTrace]
          rw [countAcc_append, countAcc_append]
          have ha_mem : (rest.get ⟨j, hj⟩).1 ∈ rest.map Prod.fst :=
            List.mem_map.mpr ⟨rest.get ⟨j, hj⟩, List.get_mem rest j hj, rfl⟩
          have hne : p.1 ≠ (rest.get ⟨j, hj⟩).1 := by
            intro he
            exact hnd.1 (he ▸ ha_mem)
          have hb0 : countAcc (rest.get ⟨j, hj⟩).1 p.2 = 0 :=
            countAcc_tagged_ne _ p.1 p.2 (htag p (by simp)) hne
          have hacc' : countAcc (rest.get ⟨j, hj⟩).1 (acc ++ p.2) = 0 := by
            rw [countAcc_append, hacc, hb0]
          rw [hacc, hb0, ih (acc ++ p.2) j hj htag_rest hnd.2 hacc']
          simp only [List.length_cons, Nat.zero_add]
          congr 1
          omega

/-! ## C10: every flush re-appends all earlier accessions' rows -/

/-- C10: the crawler flushes the entire accumulated results list after
every accession, and the sink appends what it is given to the file's
existing content, so rows duplicate: over per-accession batches that
carry distinct accession numbers (with szFn keeping every flush on the
first file), after all k batches the rows of the batch at 0-based
index i occur (k - i) times in the output file — that is, k - i + 1
times for the 1-based position i + 1, times the batch's own row
count. -/
theorem c10_repeated_flushes (szFn : Frame → Nat) (hsz : ∀ f, szFn f ≤ threshold)
    (batches : List (Str × List Row))
    (htag : ∀ p ∈ batches, ∀ r ∈ p.2, r.lookup colAccession = some (some p.1))
    (hnd : (batches.map Prod.fst).Nodup)
    (i : Nat) (hi : i < batches.length) :
    countAcc (batches.get ⟨i, hi⟩).1
        (firstFileRows (crawlFlushLoop szFn (batches.map Prod.snd) [] []).2) =
      (batches.length - i) * (batches.get ⟨i, hi⟩).2.length := by
  rw [crawl_single szFn hsz (batches.map Prod.snd) [] [] (Or.inl rfl)]
  rw [show firstFileRows ([] : List (Option Frame)) = [] from rfl, List.nil_append]
  exact countAcc_flushTrace_main batches [] i hi htag hnd (by simp [countAcc])

/-- C10 witness: two accessions of one row each; the first accession's
row is present twice in the file after both flushes. -/
theorem c10_witness :
    countAcc (batchesTwo.get ⟨0, by decide⟩).1
        (firstFileRows (crawlFlushLoop szZero (batchesTwo.map Prod.snd) [] []).2) =
      (batchesTwo.length - 0) * (batchesTwo.get ⟨0, by decide⟩).2.length :=
  c10_repeated_flushes szZero (fun _ => Nat.zero_le _) batchesTwo (by decide) (by decide)
    0 (by decide)

end Geo
